import Mathlib

/-!
Verification of the buildah `images` command front-end
(`cmd/buildah/images.go`) and of the ID-map conversion helpers (`util.go`).

Embedding conventions:
* Go strings are Lean `String`s, manipulated through explicitly structural
  helpers over `String.data` so that every definition reduces in the kernel.
* Go `time.Time` instants are modelled as integers; the zero `time.Time`
  is modelled as `0`, `Before` as `<`, `After` as `>`.
* The `float64` arithmetic of `formattedSize` is modelled by exact fractions
  (`GoFloat`) carrying the exact value of an IEEE-754 binary64 number:
  `roundToFloat64` performs the binary64 rounding (round to nearest, ties
  to the even 53-bit significand) after the `int64` conversion and after
  each division by 1000, so the modelled values are bit-for-bit those of
  the Go program (all values arising here are in the normal range, far
  from underflow and overflow, so the unbounded-exponent rounding below
  coincides with binary64).
* Go machine integers are `Int`/`Nat` with explicit `% 2 ^ 32` where Go
  truncates (`uint32(x)`).
* External collaborators (the store, the image inspector, the reference
  normalizer of containers/image) are passed in as explicit oracle
  parameters, except for the reference normalizer, which is modelled
  concretely below from the spec's description.
* Go functions that can panic at runtime return a `GoResult` with a
  dedicated `crash` constructor.
-/

/-- Result of a Go function call: a normal return, an error return, or a
runtime panic (such as an out-of-range slice index). -/
inductive GoResult (α : Type) where
  | ok (val : α)
  | err (msg : String)
  | crash (msg : String)
deriving DecidableEq, Repr

/-- Split a character list at every occurrence of the separator; the result
has one part more than there are separators (so `[[]]` for the empty list). -/
def splitChars (sep : Char) : List Char → List (List Char)
  | [] => [[]]
  | c :: rest =>
    match splitChars sep rest with
    | [] => [[c]]
    | g :: gs => if c = sep then [] :: g :: gs else (c :: g) :: gs

/-- Go `strings.Split(s, sep)` for a one-character separator. -/
def goSplit (s : String) (sep : Char) : List String :=
  (splitChars sep s.data).map (fun l => (⟨l⟩ : String))

/-- Join character lists with a separator character (inverse of `splitChars`). -/
def joinWithChar (sep : Char) : List (List Char) → List Char
  | [] => []
  | [x] => x
  | x :: y :: rest => x ++ sep :: joinWithChar sep (y :: rest)

/-- Go `strings.SplitN(s, sep, 2)` for a one-character separator: split at
the first occurrence only; a string not containing the separator yields a
one-element slice. -/
def goSplitN2 (s : String) (sep : Char) : List String :=
  match splitChars sep s.data with
  | [] => [s]
  | [x] => [(⟨x⟩ : String)]
  | x :: rest => [(⟨x⟩ : String), (⟨joinWithChar sep rest⟩ : String)]

/-- Whitespace characters trimmed by Go `strings.TrimSpace` (ASCII part). -/
def isSpaceChar (c : Char) : Bool := c = ' ' ∨ c = '\t' ∨ c = '\n' ∨ c = '\r'

/-- Go `strings.TrimSpace`. -/
def trimSpace (s : String) : String :=
  ⟨((s.data.dropWhile isSpaceChar).reverse.dropWhile isSpaceChar).reverse⟩

/-- Go `strings.HasSuffix`. -/
def goHasSuffix (s suf : String) : Bool := List.isSuffixOf suf.data s.data

/-- Go `strings.Contains(s, string(c))` for a one-character substring. -/
def containsChar (s : String) (c : Char) : Bool := s.data.any (· = c)

/-- Exact fraction `num / den` (with positive denominator by construction)
modelling the `float64` values that `formattedSize` computes: each value
held in a `GoFloat` is the exact rational value of the Go program's
binary64 number, maintained by applying `roundToFloat64` after every
inexact operation. -/
structure GoFloat where
  num : Int
  den : Int
deriving DecidableEq, Repr

/-- Embed an integer (the exact value, before binary64 rounding). -/
def GoFloat.ofInt (n : Int) : GoFloat := ⟨n, 1⟩

/-- Comparison `a <= x` for an integer bound `a` (denominator positive). -/
def GoFloat.atLeast (x : GoFloat) (a : Int) : Bool := a * x.den ≤ x.num

/-- Whether the value is zero (denominator positive). -/
def GoFloat.isZero (x : GoFloat) : Bool := x.num = 0

/-- Whether the value is negative (denominator positive). -/
def GoFloat.isNeg (x : GoFloat) : Bool := x.num < 0

/-- Negation. -/
def GoFloat.neg (x : GoFloat) : GoFloat := ⟨-x.num, x.den⟩

/-- Multiplication by `10 ^ k` for an integer exponent `k`, performed exactly. -/
def GoFloat.mulPow10 (x : GoFloat) (k : Int) : GoFloat :=
  if 0 ≤ k then ⟨x.num * 10 ^ k.toNat, x.den⟩ else ⟨x.num, x.den * 10 ^ (-k).toNat⟩

/-- Round to the nearest integer, ties to even — the rounding Go's `%g`
verb applies to the decimal significand. -/
def GoFloat.rhe (x : GoFloat) : Int :=
  let q := Int.fdiv x.num x.den
  let r := x.num - q * x.den
  if 2 * r < x.den then q
  else if x.den < 2 * r then q + 1
  else if q % 2 = 0 then q else q + 1

/-- Number of binary digits of `n` (0 for 0; structural, fuel = n). -/
def bitlenAux : Nat → Nat → Nat
  | 0, _ => 0
  | fuel + 1, n => if n = 0 then 0 else bitlenAux fuel (n / 2) + 1

/-- Number of binary digits of a natural number. -/
def bitlen (n : Nat) : Nat := bitlenAux (n + 1) n

/-- Exact comparison `a < b * 2 ^ s` for a signed shift `s`. -/
def ltShift (a b : Int) (s : Int) : Bool :=
  if 0 ≤ s then a < b * 2 ^ s.toNat else a * 2 ^ (-s).toNat < b

/-- Round an exact fraction to the nearest IEEE-754 binary64 value, ties
to the even 53-bit significand: pick the binary exponent `e` with
`2 ^ 52 ≤ |x| / 2 ^ e < 2 ^ 53`, round the scaled magnitude to an integer
significand half-to-even, and rescale. The exponent is not clamped: every
value arising in `formattedSize` (magnitude between 1 and `2 ^ 63`) is in
the normal binary64 range, where this agrees with binary64 exactly. -/
def roundToFloat64 (x : GoFloat) : GoFloat :=
  let a : Int := if x.num < 0 then -x.num else x.num
  if a = 0 then ⟨0, 1⟩
  else
    let e0 : Int := (bitlen a.toNat : Int) - (bitlen x.den.toNat : Int) - 53
    let e : Int := if ltShift a x.den (53 + e0) then e0 else e0 + 1
    let m : Int :=
      if 0 ≤ e then GoFloat.rhe ⟨a, x.den * 2 ^ e.toNat⟩
      else GoFloat.rhe ⟨a * 2 ^ (-e).toNat, x.den⟩
    let v : GoFloat := if 0 ≤ e then ⟨m * 2 ^ e.toNat, 1⟩ else ⟨m, 2 ^ (-e).toNat⟩
    if x.num < 0 then ⟨-v.num, v.den⟩ else v

/-- Division by 1000 (`formattedSize /= 1000`): Go divides two binary64
values with a correctly rounded result, modelled as the exact quotient
followed by binary64 rounding. -/
def GoFloat.div1000 (x : GoFloat) : GoFloat := roundToFloat64 ⟨x.num, x.den * 1000⟩

/-- Decimal digits of `n`, most significant first (structural, fuel = n). -/
def natDigitsAux : Nat → Nat → List Char
  | 0, _ => []
  | fuel + 1, n => if n = 0 then [] else natDigitsAux fuel (n / 10) ++ [Char.ofNat (48 + n % 10)]

/-- Decimal representation of a natural number. -/
def natChars (n : Nat) : List Char := if n = 0 then ['0'] else natDigitsAux (n + 1) n

/-- Number of decimal digits of `n` (1 for 0). -/
def digitCount (n : Nat) : Nat := (natChars n).length

/-- Exponent `e` with `10 ^ e ≤ x < 10 ^ (e + 1)` for a positive fraction:
scale `x` up by enough powers of ten to exceed 1, count the integer digits. -/
def exponent10 (x : GoFloat) : Int :=
  let f : Nat := digitCount x.den.toNat
  let y : Int := Int.fdiv (x.num * 10 ^ f) x.den
  (digitCount y.toNat : Int) - 1 - f

/-- Drop trailing `0` characters. -/
def stripZeros (l : List Char) : List Char := (l.reverse.dropWhile (· = '0')).reverse

/-- Exponent part of Go scientific notation: sign and at least two digits. -/
def expChars (e : Int) : List Char :=
  let mag := (if e < 0 then -e else e).toNat
  let ds := natChars mag
  'e' :: (if e < 0 then '-' else '+') :: (if ds.length < 2 then '0' :: ds else ds)

/-- Go `%.3g` of a positive value: three significant decimal digits with
trailing zeros removed, scientific notation when the exponent is below -4
or at least 3 (the precision). -/
def g3Pos (x : GoFloat) : List Char :=
  let e0 := exponent10 x
  let d0 := (GoFloat.rhe (x.mulPow10 (2 - e0))).toNat
  let d := if 1000 ≤ d0 then d0 / 10 else d0
  let e := if 1000 ≤ d0 then e0 + 1 else e0
  let ds := natChars d
  if e < -4 ∨ 3 ≤ e then
    let frac := stripZeros ds.tail
    ds.take 1 ++ (if frac = [] then [] else '.' :: frac) ++ expChars e
  else if 0 ≤ e then
    let frac := stripZeros (ds.drop (e.toNat + 1))
    ds.take (e.toNat + 1) ++ (if frac = [] then [] else '.' :: frac)
  else
    let frac := stripZeros (List.replicate (-e - 1).toNat '0' ++ ds)
    '0' :: (if frac = [] then [] else '.' :: frac)

/-- Go `fmt.Sprintf("%.3g", x)`. -/
def g3 (x : GoFloat) : String :=
  if x.isZero then "0"
  else if x.isNeg then ⟨'-' :: g3Pos x.neg⟩
  else ⟨g3Pos x⟩

/-- Suffix table of `formattedSize`. -/
def sizeSuffixes : List String := ["B", "KB", "MB", "GB", "TB"]

/-- The `for formattedSize >= 1000 && count < 4` loop of `formattedSize`.
Each iteration increments `count`, so starting from `count = 0` the loop
body runs at most four times; fuel 4 therefore reproduces it exactly. -/
def formattedSizeLoop : Nat → GoFloat → Nat → GoFloat × Nat
  | 0, v, count => (v, count)
  | fuel + 1, v, count =>
    if v.atLeast 1000 ∧ count < 4 then formattedSizeLoop fuel v.div1000 (count + 1)
    else (v, count)

/-- `formattedSize` from `cmd/buildah/images.go`: convert the `int64` size
to `float64` (binary64 rounding), scale it down by factors of 1000 while it
is at least 1000 (at most four times, each division correctly rounded),
then render it with `%.3g` followed by the selected suffix. -/
def formattedSize (size : Int) : String :=
  let p := formattedSizeLoop 4 (roundToFloat64 (GoFloat.ofInt size)) 0
  g3 p.1 ++ " " ++ sizeSuffixes.getD p.2 ""

/-- `k`-fold application of the loop's correctly rounded division by 1000. -/
def iterDiv1000 (v : GoFloat) : Nat → GoFloat
  | 0 => v
  | k + 1 => (iterDiv1000 v k).div1000

/-- The value of `float64(size)` after `k` of the loop's divisions by
1000 (closed form of the loop's running value). -/
def scaledSize (size : Int) (k : Nat) : GoFloat :=
  iterDiv1000 (roundToFloat64 (GoFloat.ofInt size)) k

/-- `storage.Image` record fields used by this command. Creation instants
are integers; the zero `time.Time` value is `0`. -/
structure StorageImage where
  id : String
  names : List String
  created : Int
  digest : String
  digests : List String
  readOnly : Bool
deriving DecidableEq, Repr

/-- `filterParams` from `cmd/buildah/images.go`. -/
structure FilterParams where
  dangling : String := ""
  label : String := ""
  beforeImage : String := ""
  sinceImage : String := ""
  beforeDate : Int := 0
  sinceDate : Int := 0
  referencePattern : String := ""
  readOnly : String := ""
deriving DecidableEq, Repr

/-- `matchesBeforeImage`: the image's creation time is the zero time, or is
strictly before the resolved reference date (`time.Time.Before` is `<`). -/
def matchesBeforeImage (image : StorageImage) (params : FilterParams) : Bool :=
  image.created = 0 ∨ image.created < params.beforeDate

/-- `matchesSinceImage`: the image's creation time is the zero time, or is
strictly after the resolved reference date (`time.Time.After` is `>`). -/
def matchesSinceImage (image : StorageImage) (params : FilterParams) : Bool :=
  image.created = 0 ∨ image.created > params.sinceDate

/-- `idtools.IDMap` of containers/storage: Go `int` fields. -/
structure IDMap where
  containerID : Int
  hostID : Int
  size : Int
deriving DecidableEq, Repr

/-- `rspec.LinuxIDMapping` of the OCI runtime spec: Go `uint32` fields,
modelled as the represented natural numbers (below `2 ^ 32`). -/
structure LinuxIDMapping where
  containerID : Nat
  hostID : Nat
  size : Nat
deriving DecidableEq, Repr

/-- Go conversion `uint32(x)` of an `int`: truncation modulo `2 ^ 32`. -/
def toUint32 (x : Int) : Nat := (x % (2 ^ 32 : Int)).toNat

/-- `convertStorageIDMaps` from `util.go`: convert storage ID maps to OCI
runtime ID mappings, truncating each field to `uint32`. -/
def convertStorageIDMaps (uidMap gidMap : List IDMap) :
    List LinuxIDMapping × List LinuxIDMapping :=
  (uidMap.map (fun m => ⟨toUint32 m.containerID, toUint32 m.hostID, toUint32 m.size⟩),
   gidMap.map (fun m => ⟨toUint32 m.containerID, toUint32 m.hostID, toUint32 m.size⟩))

/-- `convertRuntimeIDMaps` from `util.go`: convert OCI runtime ID mappings
back to storage ID maps (`int(x)` of a `uint32` is value-preserving, Go's
`int` being 64 bits wide). -/
def convertRuntimeIDMaps (uidMap gidMap : List LinuxIDMapping) :
    List IDMap × List IDMap :=
  (uidMap.map (fun m => ⟨(m.containerID : Int), (m.hostID : Int), (m.size : Int)⟩),
   gidMap.map (fun m => ⟨(m.containerID : Int), (m.hostID : Int), (m.size : Int)⟩))

/-- An ID map entry whose fields are non-negative and representable in 32
bits. -/
def IDMap.inRange (m : IDMap) : Prop :=
  0 ≤ m.containerID ∧ m.containerID < 2 ^ 32 ∧
  0 ≤ m.hostID ∧ m.hostID < 2 ^ 32 ∧
  0 ≤ m.size ∧ m.size < 2 ^ 32

instance (m : IDMap) : Decidable m.inRange := by
  unfold IDMap.inRange
  infer_instance

/-- A parsed, normalized image reference: repository name and optional tag. -/
structure NamedRef where
  name : String
  tag : Option String
deriving DecidableEq, Repr

/-- Split a reference into repository and tag: the tag is what follows the
last colon that comes after the last slash (so a port in the domain part is
not taken for a tag). -/
def splitRefTag (cs : List Char) : List Char × Option (List Char) :=
  let rev := cs.reverse
  let pre := rev.takeWhile (fun c => c ≠ ':' ∧ c ≠ '/')
  match rev.drop pre.length with
  | ':' :: rest => (rest.reverse, some pre.reverse)
  | _ => (cs, none)

/-- Normalization of a repository name as Docker short names require: a
first component that contains no dot or colon and is not `localhost` is not
a registry domain, so the default domain `docker.io` is prepended, with
`library/` inserted for single-component official images. -/
def normalizeRepo (cs : List Char) : List Char :=
  match splitChars '/' cs with
  | [] => cs
  | [single] => "docker.io/library/".data ++ single
  | first :: rest =>
    if first.any (fun c => c = '.' ∨ c = ':') ∨ first = "localhost".data then
      if first = "docker.io".data ∧ rest.length = 1 then
        first ++ "/library/".data ++ joinWithChar '/' rest
      else cs
    else "docker.io".data ++ '/' :: cs

/-- Modelled from the spec: the external reference normalizer
(`reference.ParseNormalizedNamed` of containers/image, not part of this
repository) parses a raw name string into a structured name with an
optional tag component, prefixing the default domain for short names;
parsing fails (`none`) for an empty or malformed name. -/
def parseNormalizedNamed (s : String) : Option NamedRef :=
  let p := splitRefTag s.data
  if p.1 = [] ∨ (splitChars '/' p.1).any (· = []) ∨ p.2 = some [] then none
  else some ⟨⟨normalizeRepo p.1⟩, p.2.map (fun t => (⟨t⟩ : String))⟩

/-- `matchesReference` from `cmd/buildah/images.go`: an empty pattern
matches everything; an empty candidate matches nothing else; otherwise the
candidate is parsed and normalized, and a pattern with a colon must match
the tag exactly and the repository exactly or as a `/`-suffix, while a
pattern without a colon is compared the same way against the full name. -/
def matchesReference (imageName argName : String) : Bool :=
  if argName = "" then true
  else if imageName = "" then false
  else
    match parseNormalizedNamed imageName with
    | none => false
    | some named =>
      if containsChar argName ':' then
        let splitArg := goSplit argName ':'
        match named.tag with
        | some tag =>
          (named.name = splitArg.getD 0 "" ∨ goHasSuffix named.name ("/" ++ splitArg.getD 0 ""))
            ∧ tag = splitArg.getD 1 ""
        | none => false
      else named.name = argName ∨ goHasSuffix named.name ("/" ++ argName)

/-- The scan over the inspected labels map in `matchesLabel`: on a key
match, a two-part predicate keeps scanning unless the value also matches,
while a one-part (bare key) predicate returns false at once. -/
def matchesLabelLoop (pair : List String) : List (String × String) → Bool
  | [] => false
  | (key, value) :: rest =>
    if key = pair.getD 0 "" then
      if pair.length = 2 then
        if value = pair.getD 1 "" then true else matchesLabelLoop pair rest
      else false
    else matchesLabelLoop pair rest

/-- `matchesLabel` from `cmd/buildah/images.go`. Resolving the image's
store reference, opening it and inspecting it are external-store calls
whose combined outcome is the `inspect` argument: `none` when any of the
three steps fails (the code then returns false), otherwise the inspected
labels map as an association list with unique keys (Go map iteration order
is arbitrary; the results below are order-independent). -/
def matchesLabel (inspect : Option (List (String × String))) (label : String) : Bool :=
  match inspect with
  | none => false
  | some labels => matchesLabelLoop (goSplitN2 label '=') labels

/-- `setFilterDate` from `cmd/buildah/images.go`: scan the stored images
for one with a name matching the argument; inspect the first such image
for its configured creation date (`inspect` models the sequence
`ParseStoreReference` / `NewImage` / `Inspect` against the external store,
keyed by image ID); with no matching image, fail with a message naming the
argument. -/
def setFilterDate (inspect : String → Except String Int) :
    List StorageImage → String → Except String Int
  | [], imgName => .error ("could not locate image \"" ++ imgName ++ "\"")
  | image :: rest, imgName =>
    if image.names.any (fun name => matchesReference name imgName) then
      inspect image.id
    else setFilterDate inspect rest imgName

/-- Clause loop of `parseFilter`: each comma-separated clause is split at
its first `=`; the switch inspects the trimmed key, and every recognized
case reads `pair[1]`, which does not exist when the clause has no `=` —
that slice access is a Go runtime panic, modelled by `GoResult.crash`. -/
def parseFilterLoop (inspect : String → Except String Int) (images : List StorageImage) :
    List String → FilterParams → GoResult FilterParams
  | [], params => .ok params
  | param :: rest, params =>
    let pair := goSplitN2 param '='
    let key := trimSpace (pair.getD 0 "")
    if key = "dangling" then
      match pair.get? 1 with
      | none => .crash "runtime error: index out of range"
      | some v =>
        if v = "true" ∨ v = "false" then
          parseFilterLoop inspect images rest { params with dangling := v }
        else .err ("invalid filter: '" ++ pair.getD 0 "" ++ "=[" ++ v ++ "]'")
    else if key = "label" then
      match pair.get? 1 with
      | none => .crash "runtime error: index out of range"
      | some v => parseFilterLoop inspect images rest { params with label := v }
    else if key = "before" then
      match pair.get? 1 with
      | none => .crash "runtime error: index out of range"
      | some v =>
        match setFilterDate inspect images v with
        | .error _ => .err ("no such id: " ++ pair.getD 0 "")
        | .ok d =>
          parseFilterLoop inspect images rest { params with beforeDate := d, beforeImage := v }
    else if key = "since" then
      match pair.get? 1 with
      | none => .crash "runtime error: index out of range"
      | some v =>
        match setFilterDate inspect images v with
        | .error _ => .err ("no such id: " ++ pair.getD 0 "")
        | .ok d =>
          parseFilterLoop inspect images rest { params with sinceDate := d, sinceImage := v }
    else if key = "reference" then
      match pair.get? 1 with
      | none => .crash "runtime error: index out of range"
      | some v => parseFilterLoop inspect images rest { params with referencePattern := v }
    else if key = "readonly" then
      match pair.get? 1 with
      | none => .crash "runtime error: index out of range"
      | some v =>
        if v = "true" ∨ v = "false" then
          parseFilterLoop inspect images rest { params with readOnly := v }
        else .err ("invalid filter: '" ++ pair.getD 0 "" ++ "=[" ++ v ++ "]'")
    else .err ("invalid filter: '" ++ pair.getD 0 "" ++ "'")

/-- `parseFilter` from `cmd/buildah/images.go`: split the filter string on
commas and process each clause. -/
def parseFilter (inspect : String → Except String Int) (images : List StorageImage)
    (filter : String) : GoResult FilterParams :=
  parseFilterLoop inspect images (goSplit filter ',') {}

/-- `imageOutputParams`: one display row of the table output. -/
structure ImageOutputParams where
  id : String
  name : String
  tag : String
  digest : String
  digests : List String
  createdAt : String
  size : String
  createdAtRaw : Int
  readOnly : Bool
deriving DecidableEq, Repr

/-- `sortImagesOutput` sorts with Go `sort.Sort` under the `Less` relation
`a[i].CreatedAtRaw.After(a[j].CreatedAtRaw)` — most recent first. Go's
unstable comparison sort is modelled by insertion sort over the
corresponding total preorder; for pairwise distinct timestamps (the case
the claim is about) every comparison sort produces this same sequence. -/
def sortImagesOutput (imagesOutput : List ImageOutputParams) : List ImageOutputParams :=
  List.insertionSort (fun a b => b.createdAtRaw ≤ a.createdAtRaw) imagesOutput

instance : IsTotal ImageOutputParams (fun a b => b.createdAtRaw ≤ a.createdAtRaw) :=
  ⟨fun a b => le_total b.createdAtRaw a.createdAtRaw⟩

instance : IsTrans ImageOutputParams (fun a b => b.createdAtRaw ≤ a.createdAtRaw) :=
  ⟨fun _ _ _ h1 h2 => le_trans h2 h1⟩

/-- `matchesDangling` from `cmd/buildah/images.go`. -/
def matchesDangling (name : String) (dangling : String) : Bool :=
  if dangling = "false" ∧ name ≠ "" then true
  else if dangling = "true" ∧ name = "" then true
  else false

/-- `matchesReadOnly` from `cmd/buildah/images.go`. -/
def matchesReadOnly (image : StorageImage) (readOnly : String) : Bool :=
  if readOnly = "false" ∧ image.readOnly = false then true
  else if readOnly = "true" ∧ image.readOnly = true then true
  else false

/-- `imageOptions` from `cmd/buildah/images.go`. The `truncate` field is
set from the negation of the `--no-trunc` flag; `readOnly` starts false
and is turned on inside the loop when a read-only image is seen (it only
affects the table header, which is outside these claims, so it is left at
its initial value here). -/
structure ImageOptions where
  all : Bool := false
  digests : Bool := false
  format : String := ""
  json : Bool := false
  noHeading : Bool := false
  truncate : Bool := true
  quiet : Bool := false
  readOnly : Bool := false
deriving DecidableEq, Repr

/-- External-store effects of the output pipeline, as oracles:
`getDateAndSize` models `getDateAndSize` (inspection time and size, errors
swallowed by the code), `isParent` is modelled from the spec: the
`imageIsParent` lineage lookup of the CLI (whose code is outside this
excerpt) decides whether the record is the parent of another stored image;
`inspectLabels` models the store inspection of `matchesLabel`; `humanAgo`
models `units.HumanDuration(time.Since(t))`. -/
structure OutputEnv where
  getDateAndSize : StorageImage → Int × Int
  isParent : StorageImage → Bool
  inspectLabels : StorageImage → Option (List (String × String))
  humanAgo : Int → String

/-- `matchesFilter` from `cmd/buildah/images.go`: a nil filter set matches
unconditionally; otherwise every specified predicate must pass. -/
def matchesFilter (env : OutputEnv) (image : StorageImage) (name : String)
    (params : Option FilterParams) : Bool :=
  match params with
  | none => true
  | some p =>
    if p.dangling ≠ "" ∧ matchesDangling name p.dangling = false then false
    else if p.label ≠ "" ∧ matchesLabel (env.inspectLabels image) p.label = false then false
    else if p.beforeImage ≠ "" ∧ matchesBeforeImage image p = false then false
    else if p.sinceImage ≠ "" ∧ matchesSinceImage image p = false then false
    else if p.referencePattern ≠ "" ∧ matchesReference name p.referencePattern = false then false
    else if p.readOnly ≠ "" ∧ matchesReadOnly image p.readOnly = false then false
    else true

/-- `shortID` from `cmd/buildah/images.go`: truncate to 12 characters. -/
def shortID (id : String) : String :=
  if 12 < id.data.length then (⟨id.data.take 12⟩ : String) else id

/-- Creation time resolution of the output loop: a nonzero inspected
configuration time that disagrees with the record's own wins (the
`.Local()` call changes only the display location, not the instant). -/
def resolvedCreated (env : OutputEnv) (image : StorageImage) : Int :=
  let inspected := (env.getDateAndSize image).1
  if inspected ≠ 0 ∧ image.created ≠ inspected then inspected else image.created

/-- Name scan of the output loop: for each name of the record, skip empty
names, names that fail to parse, names not matching the name argument and
names rejected by the filter; each surviving name contributes its
normalized repository and tag (empty for an untagged name). The dead
digest bookkeeping of the source (`imageDigests = append(imageDigests)`,
a no-op) is omitted. -/
def collectReposAndTags (env : OutputEnv) (filters : Option FilterParams)
    (argName : String) (image : StorageImage) : List (String × String) :=
  image.names.filterMap (fun name =>
    if name = "" then none
    else
      match parseNormalizedNamed name with
      | none => none
      | some named =>
        if matchesReference name argName = false then none
        else if matchesFilter env image name filters = false then none
        else some (named.name, named.tag.getD ""))

/-- Table rows contributed by one image record (the body of the image loop
of `outputImages` in table mode): intermediate nameless records are
suppressed without `--all`; a record none of whose names (or, for a
nameless record, the empty name) passes the filter contributes nothing; a
surviving record with no name/tag pairs contributes one row with empty
name and tag; `--quiet` keeps only the first row. -/
def rowsForImage (env : OutputEnv) (filters : Option FilterParams) (argName : String)
    (opts : ImageOptions) (image : StorageImage) : List ImageOutputParams :=
  if opts.all = false ∧ image.names = [] ∧ env.isParent image = true then []
  else
    let imageID := if opts.truncate then shortID image.id else "sha256:" ++ image.id
    let reposAndTags := collectReposAndTags env filters argName image
    let filterMatched : Bool :=
      (!reposAndTags.isEmpty) || (image.names.isEmpty && matchesFilter env image "" filters)
    if filterMatched = false then []
    else
      let pairs := if reposAndTags.isEmpty then [("", "")] else reposAndTags
      let rows := pairs.map (fun rt =>
        ({ id := imageID, name := rt.1, tag := rt.2, digest := image.digest,
           digests := image.digests,
           createdAt := env.humanAgo (resolvedCreated env image) ++ " ago",
           size := formattedSize (env.getDateAndSize image).2,
           createdAtRaw := resolvedCreated env image,
           readOnly := image.readOnly } : ImageOutputParams))
      if opts.quiet then rows.take 1 else rows

/-- `jsonImage`: one JSON-mode entry (one per record, not per name). -/
structure JsonImage where
  id : String
  names : List String
  digest : String
  digests : List String
  createdAt : String
  size : String
  createdAtRaw : Int
  readOnly : Bool
deriving DecidableEq, Repr

/-- JSON entries contributed by one image record (the JSON branch of the
image loop): same suppression and filter gating as the table rows, then
exactly one entry per surviving record. -/
def jsonForImage (env : OutputEnv) (filters : Option FilterParams) (argName : String)
    (opts : ImageOptions) (image : StorageImage) : List JsonImage :=
  if opts.all = false ∧ image.names = [] ∧ env.isParent image = true then []
  else
    let reposAndTags := collectReposAndTags env filters argName image
    let filterMatched : Bool :=
      (!reposAndTags.isEmpty) || (image.names.isEmpty && matchesFilter env image "" filters)
    if filterMatched = false then []
    else
      [{ id := image.id, names := image.names, digest := image.digest,
         digests := image.digests,
         createdAt := env.humanAgo (resolvedCreated env image) ++ " ago",
         size := formattedSize (env.getDateAndSize image).2,
         createdAtRaw := resolvedCreated env image,
         readOnly := image.readOnly }]

/-- Whether a record makes the loop set `found`: some name is nonempty,
parses, and matches the name argument (independent of the filter). -/
def foundInImage (argName : String) (image : StorageImage) : Bool :=
  image.names.any (fun name =>
    name ≠ "" ∧ (parseNormalizedNamed name).isSome ∧ matchesReference name argName = true)

/-- `outputImages` from `cmd/buildah/images.go`: iterate the records,
fail with a not-found error when a name argument was supplied and no
record's name matched it, and otherwise emit either the JSON entries or
the table rows sorted most recent first. -/
def outputImages (env : OutputEnv) (images : List StorageImage) (filters : Option FilterParams)
    (argName : String) (opts : ImageOptions) :
    GoResult (List JsonImage ⊕ List ImageOutputParams) :=
  let found := images.any (foundInImage argName)
  if found = false ∧ argName ≠ "" then .err ("No such image " ++ argName)
  else if opts.json then
    .ok (.inl (images.map (jsonForImage env filters argName opts)).flatten)
  else
    .ok (.inr (sortImagesOutput (images.map (rowsForImage env filters argName opts)).flatten))

/-- Externally observable steps of `imagesCmd`, in execution order:
obtaining the store handle, building the system context, enumerating the
stored images, parsing the filter, and producing output. -/
inductive CmdEvent where
  | getStore
  | sysContext
  | listImages
  | filterParse
  | output
deriving DecidableEq, Repr

/-- `imageResults` from `cmd/buildah/images.go`: the flag values bound by
the cobra command (`truncate` holds the raw `--no-trunc` flag, negated
later). -/
structure ImageResults where
  all : Bool := false
  digests : Bool := false
  format : String := ""
  json : Bool := false
  noHeading : Bool := false
  truncate : Bool := false
  quiet : Bool := false
  filter : String := ""
deriving DecidableEq, Repr

/-- Environment of `imagesCmd`: outcomes of its external calls.
`getStoreResult` is `getStore(c)`, `sysCtxResult` is
`parse.SystemContextFromOptions(c)` (repository code outside this excerpt,
modelled from the spec as a store-independent call that may fail),
`imagesResult` is `store.Images()`, `flagsOrderOk` is
`buildahcli.VerifyFlagsArgsOrder(args)` (repository code outside this
excerpt, modelled from the spec's argument-order usage check), `inspect`
feeds `setFilterDate`, and `outputEnv` feeds `outputImages`. -/
structure CmdEnv where
  getStoreResult : Except String Unit
  sysCtxResult : Except String Unit
  imagesResult : Except String (List StorageImage)
  flagsOrderOk : Except String Unit
  inspect : String → Except String Int
  outputEnv : OutputEnv

/-- `imagesCmd` from `cmd/buildah/images.go`, paired with the trace of
external steps it performed, in order. The argument checks come first; the
store handle is then obtained, the system context built and the images
enumerated; only after that are `--quiet`/`--format` checked for mutual
exclusion, the filter parsed, and the output produced. -/
def imagesCmd (env : CmdEnv) (args : List String) (iopts : ImageResults) :
    GoResult (List JsonImage ⊕ List ImageOutputParams) × List CmdEvent :=
  let argStep : GoResult String :=
    if args.isEmpty then .ok ""
    else if iopts.all then
      .err "when using the --all switch, you may not pass any images names or IDs"
    else
      match env.flagsOrderOk with
      | .error e => .err e
      | .ok _ =>
        if args.length = 1 then .ok (args.getD 0 "")
        else .err "'buildah images' requires at most 1 argument"
  match argStep with
  | .err e => (.err e, [])
  | .crash e => (.crash e, [])
  | .ok name =>
    match env.getStoreResult with
    | .error e => (.err e, [.getStore])
    | .ok _ =>
      match env.sysCtxResult with
      | .error e => (.err ("error building system context: " ++ e), [.getStore, .sysContext])
      | .ok _ =>
        match env.imagesResult with
        | .error e =>
          (.err ("error reading images: " ++ e), [.getStore, .sysContext, .listImages])
        | .ok images =>
          if iopts.quiet ∧ iopts.format ≠ "" then
            (.err "quiet and format are mutually exclusive", [.getStore, .sysContext, .listImages])
          else
            let opts : ImageOptions :=
              { all := iopts.all, digests := iopts.digests, format := iopts.format,
                json := iopts.json, noHeading := iopts.noHeading,
                truncate := !iopts.truncate, quiet := iopts.quiet }
            if iopts.filter ≠ "" then
              match parseFilter env.inspect images iopts.filter with
              | .err e =>
                (.err ("error parsing filter: " ++ e),
                 [.getStore, .sysContext, .listImages, .filterParse])
              | .crash e =>
                (.crash e, [.getStore, .sysContext, .listImages, .filterParse])
              | .ok params =>
                (outputImages env.outputEnv images (some params) name opts,
                 [.getStore, .sysContext, .listImages, .filterParse, .output])
            else
              (outputImages env.outputEnv images none name opts,
               [.getStore, .sysContext, .listImages, .output])

/-- One more rounded division commutes with the iteration from the front. -/
theorem iterDiv1000_succ_comm (v : GoFloat) (k : Nat) :
    iterDiv1000 v.div1000 k = iterDiv1000 v (k + 1) := by
  induction k with
  | zero => rfl
  | succ k ih =>
    show (iterDiv1000 v.div1000 k).div1000 = (iterDiv1000 v (k + 1)).div1000
    rw [ih]

/-- Closed form of the scaling loop: starting with `fuel` iterations left
and `4 - fuel` divisions already performed, the loop performs `k ≤ fuel`
more correctly rounded divisions by 1000; every performed division found a
value of at least 1000, and the loop stops as soon as the value drops
below 1000 or the count reaches 4. -/
theorem formattedSizeLoop_closed (fuel : Nat) :
    ∀ (v : GoFloat) (c : Nat), c + fuel = 4 →
      ∃ k, k ≤ fuel ∧
        formattedSizeLoop fuel v c = (iterDiv1000 v k, c + k) ∧
        ((iterDiv1000 v k).atLeast 1000 = false ∨ c + k = 4) ∧
        (∀ j, j < k → (iterDiv1000 v j).atLeast 1000 = true) := by
  induction fuel with
  | zero =>
    intro v c hc
    exact ⟨0, le_refl 0, rfl, Or.inr (by omega), fun j hj => absurd hj (Nat.not_lt_zero j)⟩
  | succ fuel ih =>
    intro v c hc
    by_cases hcond : (v.atLeast 1000 = true ∧ c < 4)
    · obtain ⟨k', hk'le, hk'eq, hk'stop, hk'all⟩ := ih v.div1000 (c + 1) (by omega)
      refine ⟨k' + 1, by omega, ?_, ?_, ?_⟩
      · have hstep : formattedSizeLoop (fuel + 1) v c
            = formattedSizeLoop fuel v.div1000 (c + 1) := by
          simp only [formattedSizeLoop]
          rw [if_pos hcond]
        rw [hstep, hk'eq, iterDiv1000_succ_comm]
        simp only [Prod.mk.injEq, true_and]
        omega
      · rcases hk'stop with h | h
        · left
          rwa [iterDiv1000_succ_comm] at h
        · right
          omega
      · intro j hj
        cases j with
        | zero => exact hcond.1
        | succ j' =>
          have hja := hk'all j' (by omega)
          rwa [iterDiv1000_succ_comm] at hja
    · refine ⟨0, Nat.zero_le _, ?_, ?_, fun j hj => absurd hj (Nat.not_lt_zero j)⟩
      · simp only [formattedSizeLoop]
        rw [if_neg hcond]
        rfl
      · rcases not_and_or.mp hcond with h | h
        · left
          cases hb : v.atLeast 1000
          · exact hb
          · exact absurd hb h
        · right
          omega

/-- C1 counterexample: the spec's example `formattedSize(1000) = "1.00 KB"`
fails on the code — Go's `%.3g` verb removes trailing zeros, so the code
renders `"1 KB"` (and likewise `formattedSize(1500000)` renders `"1.5 MB"`,
not `"1.50 MB"`). -/
theorem formattedSize_spec_example_false :
    formattedSize 1000 = "1 KB" ∧ formattedSize 1000 ≠ "1.00 KB" ∧
    formattedSize 1500000 = "1.5 MB" ∧ formattedSize 1500000 ≠ "1.50 MB" := by
  decide

/-- C1 (amended): for every non-negative int64 size, `formattedSize`
repeatedly divides the `float64` value by 1000 until the scaled value is
below 1000 (at most four correctly rounded divisions, capping the suffix
at TB, and each performed division found a value of at least 1000), and
renders the result with Go `%.3g` — at most three significant digits with
trailing zeros removed — followed by the selected suffix from B, KB, MB,
GB, TB; in particular `formattedSize 999 = "999 B"`,
`formattedSize 1000 = "1 KB"`, `formattedSize 1500000 = "1.5 MB"`, and
`formattedSize 1015 = "1.01 KB"` (the binary64 quotient 1015/1000 lies
just below 1.015, so `%.3g` rounds it down). -/
theorem formattedSize_correct :
    (∀ size : Int, 0 ≤ size → size < 2 ^ 63 →
      ∃ count : Nat, count ≤ 4 ∧
        formattedSize size
          = g3 (scaledSize size count) ++ " " ++ sizeSuffixes.getD count "" ∧
        ((scaledSize size count).atLeast 1000 = false ∨ count = 4) ∧
        (∀ j, j < count → (scaledSize size j).atLeast 1000 = true)) ∧
    formattedSize 999 = "999 B" ∧ formattedSize 1000 = "1 KB" ∧
    formattedSize 1500000 = "1.5 MB" ∧ formattedSize 1015 = "1.01 KB" := by
  refine ⟨?_, by decide, by decide, by decide, by decide⟩
  intro size _ _
  obtain ⟨k, hkle, hkeq, hkstop, hkall⟩ :=
    formattedSizeLoop_closed 4 (roundToFloat64 (GoFloat.ofInt size)) 0 rfl
  refine ⟨k, hkle, ?_, ?_, ?_⟩
  · show g3 (formattedSizeLoop 4 (roundToFloat64 (GoFloat.ofInt size)) 0).1 ++ " "
        ++ sizeSuffixes.getD (formattedSizeLoop 4 (roundToFloat64 (GoFloat.ofInt size)) 0).2 ""
        = _
    rw [hkeq]
    simp [scaledSize]
  · simpa [scaledSize] using hkstop
  · simpa [scaledSize] using hkall

/-- Witness for `formattedSize_correct`: its universally quantified part
applied at the concrete size 1500000. -/
theorem formattedSize_correct_witness :
    0 ≤ (1500000 : Int) ∧ (1500000 : Int) < 2 ^ 63 ∧
    ∃ count : Nat, count ≤ 4 ∧
      formattedSize 1500000
        = g3 (scaledSize 1500000 count) ++ " " ++ sizeSuffixes.getD count "" ∧
      ((scaledSize 1500000 count).atLeast 1000 = false ∨ count = 4) ∧
      (∀ j, j < count → (scaledSize 1500000 j).atLeast 1000 = true) :=
  ⟨by decide, by decide, formattedSize_correct.1 1500000 (by decide) (by decide)⟩

/-- C7 (confirmed): an image whose recorded creation time is the zero time
satisfies both `matchesBeforeImage` and `matchesSinceImage` regardless of
the resolved reference timestamps; an image with a nonzero creation time
satisfies `matchesBeforeImage` exactly when its creation time is strictly
before the reference date and `matchesSinceImage` exactly when it is
strictly after it. -/
theorem matchesBeforeSinceImage_correct (image : StorageImage) (params : FilterParams) :
    (image.created = 0 →
      matchesBeforeImage image params = true ∧ matchesSinceImage image params = true) ∧
    (image.created ≠ 0 →
      (matchesBeforeImage image params = true ↔ image.created < params.beforeDate) ∧
      (matchesSinceImage image params = true ↔ image.created > params.sinceDate)) := by
  simp [matchesBeforeImage, matchesSinceImage]
  tauto

/-- Witness for `matchesBeforeSinceImage_correct` at concrete images: one
with the zero creation time and one created at instant 7 against reference
dates 5 and 5. -/
theorem matchesBeforeSinceImage_correct_witness :
    ((⟨"a", [], 0, "", [], false⟩ : StorageImage).created = 0 ∧
      matchesBeforeImage ⟨"a", [], 0, "", [], false⟩ { beforeDate := 5 } = true ∧
      matchesSinceImage ⟨"a", [], 0, "", [], false⟩ { beforeDate := 5 } = true) ∧
    ((⟨"b", [], 7, "", [], false⟩ : StorageImage).created ≠ 0 ∧
      (matchesBeforeImage ⟨"b", [], 7, "", [], false⟩ { beforeDate := 5, sinceDate := 5 } = true
        ↔ (7 : Int) < 5) ∧
      (matchesSinceImage ⟨"b", [], 7, "", [], false⟩ { beforeDate := 5, sinceDate := 5 } = true
        ↔ (7 : Int) > 5)) :=
  ⟨⟨rfl, (matchesBeforeSinceImage_correct ⟨"a", [], 0, "", [], false⟩ { beforeDate := 5 }).1 rfl⟩,
   ⟨by decide, (matchesBeforeSinceImage_correct ⟨"b", [], 7, "", [], false⟩
      { beforeDate := 5, sinceDate := 5 }).2 (by decide)⟩⟩

/-- Round trip on one in-range entry. -/
theorem idMap_roundTrip (m : IDMap) (h : m.inRange) :
    ((⟨(toUint32 m.containerID : Int), (toUint32 m.hostID : Int),
        (toUint32 m.size : Int)⟩ : IDMap)) = m := by
  obtain ⟨mc, mh, ms⟩ := m
  obtain ⟨h1, h2, h3, h4, h5, h6⟩ := h
  simp only [toUint32, IDMap.mk.injEq]
  rw [Int.emod_eq_of_lt h1 h2, Int.emod_eq_of_lt h3 h4, Int.emod_eq_of_lt h5 h6]
  exact ⟨Int.toNat_of_nonneg h1, Int.toNat_of_nonneg h3, Int.toNat_of_nonneg h5⟩

/-- C10 (confirmed): on UID- and GID-map lists whose entries are
non-negative and representable in 32 bits, `convertRuntimeIDMaps` inverts
`convertStorageIDMaps`: the two conversions round-trip to the original
lists. -/
theorem convertIDMaps_roundTrip (uidMap gidMap : List IDMap)
    (hu : ∀ m ∈ uidMap, m.inRange) (hg : ∀ m ∈ gidMap, m.inRange) :
    convertRuntimeIDMaps (convertStorageIDMaps uidMap gidMap).1
      (convertStorageIDMaps uidMap gidMap).2 = (uidMap, gidMap) := by
  simp only [convertStorageIDMaps, convertRuntimeIDMaps, List.map_map, Prod.mk.injEq]
  constructor
  · exact List.map_congr_left (fun m hm => idMap_roundTrip m (hu m hm)) |>.trans uidMap.map_id
  · exact List.map_congr_left (fun m hm => idMap_roundTrip m (hg m hm)) |>.trans gidMap.map_id

/-- Witness for `convertIDMaps_roundTrip` at concrete map lists. -/
theorem convertIDMaps_roundTrip_witness :
    (∀ m ∈ [(⟨0, 1000, 65536⟩ : IDMap)], m.inRange) ∧
    (∀ m ∈ [(⟨0, 2000, 1⟩ : IDMap), ⟨1, 4294967295, 5⟩], m.inRange) ∧
    convertRuntimeIDMaps
        (convertStorageIDMaps [⟨0, 1000, 65536⟩] [⟨0, 2000, 1⟩, ⟨1, 4294967295, 5⟩]).1
        (convertStorageIDMaps [⟨0, 1000, 65536⟩] [⟨0, 2000, 1⟩, ⟨1, 4294967295, 5⟩]).2
      = ([⟨0, 1000, 65536⟩], [⟨0, 2000, 1⟩, ⟨1, 4294967295, 5⟩]) :=
  ⟨by decide, by decide,
   convertIDMaps_roundTrip _ _ (by decide) (by decide)⟩

/-- C6 (confirmed): `matchesReference` returns true for every candidate
when the pattern is empty; false when the candidate is empty and the
pattern is not; for a parsed candidate, a pattern containing a colon
matches iff the candidate's tag equals the pattern's tag and the
candidate's repository equals the pattern's repository or ends with `/`
followed by it, and a pattern without a colon matches iff the candidate's
full name equals the pattern or ends with `/` followed by it; in
particular the two concrete examples of the spec hold. -/
theorem matchesReference_correct :
    (∀ imageName : String, matchesReference imageName "" = true) ∧
    (∀ argName : String, argName ≠ "" → matchesReference "" argName = false) ∧
    (∀ imageName argName : String, ∀ named : NamedRef,
      argName ≠ "" → imageName ≠ "" → parseNormalizedNamed imageName = some named →
      (containsChar argName ':' = true →
        (matchesReference imageName argName = true ↔
          named.tag = some ((goSplit argName ':').getD 1 "") ∧
          (named.name = (goSplit argName ':').getD 0 "" ∨
            goHasSuffix named.name ("/" ++ (goSplit argName ':').getD 0 "") = true))) ∧
      (containsChar argName ':' = false →
        (matchesReference imageName argName = true ↔
          (named.name = argName ∨ goHasSuffix named.name ("/" ++ argName) = true)))) ∧
    matchesReference "registry.example.com/myrepo/image:v1" "myrepo/image:v1" = true ∧
    matchesReference "registry.example.com/myrepo/image:v1" "otherrepo/image:v1" = false := by
  refine ⟨?_, ?_, ?_, by decide, by decide⟩
  · intro imageName
    simp [matchesReference]
  · intro argName h
    simp [matchesReference, h]
  · intro imageName argName named harg himg hparse
    constructor
    · intro hc
      rw [matchesReference, if_neg harg, if_neg himg, hparse]
      rcases named with ⟨name, tag⟩
      rcases tag with _ | t
      · simp [hc]
      · simp only [hc, if_true]
        simp only [decide_eq_true_eq, Option.some.injEq]
        tauto
    · intro hc
      rw [matchesReference, if_neg harg, if_neg himg, hparse]
      simp only [hc, Bool.false_eq_true, if_false, decide_eq_true_eq]

/-- Witness for `matchesReference_correct`: its quantified part applied to
the spec's fully qualified candidate and short pattern. -/
theorem matchesReference_correct_witness :
    (containsChar "myrepo/image:v1" ':' = true →
      (matchesReference "registry.example.com/myrepo/image:v1" "myrepo/image:v1" = true ↔
        (⟨"registry.example.com/myrepo/image", some "v1"⟩ : NamedRef).tag
            = some ((goSplit "myrepo/image:v1" ':').getD 1 "") ∧
        ((⟨"registry.example.com/myrepo/image", some "v1"⟩ : NamedRef).name
            = (goSplit "myrepo/image:v1" ':').getD 0 "" ∨
          goHasSuffix (⟨"registry.example.com/myrepo/image", some "v1"⟩ : NamedRef).name
            ("/" ++ (goSplit "myrepo/image:v1" ':').getD 0 "") = true))) ∧
    (containsChar "myrepo/image:v1" ':' = false →
      (matchesReference "registry.example.com/myrepo/image:v1" "myrepo/image:v1" = true ↔
        ((⟨"registry.example.com/myrepo/image", some "v1"⟩ : NamedRef).name = "myrepo/image:v1" ∨
          goHasSuffix (⟨"registry.example.com/myrepo/image", some "v1"⟩ : NamedRef).name
            ("/" ++ "myrepo/image:v1") = true))) :=
  matchesReference_correct.2.2.1 "registry.example.com/myrepo/image:v1" "myrepo/image:v1"
    ⟨"registry.example.com/myrepo/image", some "v1"⟩ (by decide) (by decide) (by decide)

/-- Key-value predicates scan for an entry equal to the pair. -/
theorem matchesLabelLoop_pair (k v : String) (labels : List (String × String)) :
    matchesLabelLoop [k, v] labels = true ↔ (k, v) ∈ labels := by
  induction labels with
  | nil => simp [matchesLabelLoop]
  | cons head rest ih =>
    obtain ⟨key, value⟩ := head
    by_cases hk : key = k
    · by_cases hv : value = v
      · subst hk; subst hv
        simp [matchesLabelLoop]
      · rw [show matchesLabelLoop [k, v] ((key, value) :: rest)
              = matchesLabelLoop [k, v] rest by
            simp [matchesLabelLoop, hk, hv]]
        rw [ih]
        simp only [List.mem_cons, Prod.mk.injEq]
        constructor
        · exact fun h => Or.inr h
        · rintro (⟨_, h2⟩ | h)
          · exact absurd h2.symm hv
          · exact h
    · rw [show matchesLabelLoop [k, v] ((key, value) :: rest)
            = matchesLabelLoop [k, v] rest by
          simp [matchesLabelLoop, hk]]
      rw [ih]
      simp only [List.mem_cons, Prod.mk.injEq]
      constructor
      · exact fun h => Or.inr h
      · rintro (⟨h1, _⟩ | h)
        · exact absurd h1.symm hk
        · exact h

/-- Bare-key predicates never succeed: a key match returns false at once,
and exhausting the map returns false as well. -/
theorem matchesLabelLoop_bare (k : String) (labels : List (String × String)) :
    matchesLabelLoop [k] labels = false := by
  induction labels with
  | nil => simp [matchesLabelLoop]
  | cons head rest ih =>
    obtain ⟨key, value⟩ := head
    by_cases hk : key = k <;> simp [matchesLabelLoop, hk, ih]

/-- C3 counterexample: for the bare-key predicate `"maintainer"` and an
image whose inspected labels contain the key `maintainer`, `matchesLabel`
returns false, although the claim states that presence of the key alone
makes the result true. -/
theorem matchesLabel_bareKey_counterexample :
    matchesLabel (some [("maintainer", "alice")]) "maintainer" = false ∧
    goSplitN2 "maintainer" '=' = ["maintainer"] ∧
    ("maintainer", "alice") ∈ [("maintainer", "alice")] := by
  decide

/-- C3 (amended): when the label predicate has the `key=value` form,
`matchesLabel` returns true iff the inspected labels contain the entry
`(key, value)` (so a key present under a different value yields false, and
an absent key yields false); when the predicate is a bare key with no
value, the result is false even when the key is present; a failed
inspection yields false. -/
theorem matchesLabel_correct :
    (∀ (labels : List (String × String)) (lbl k v : String),
      (goSplitN2 lbl '=' = [k, v] →
        (matchesLabel (some labels) lbl = true ↔ (k, v) ∈ labels)) ∧
      (goSplitN2 lbl '=' = [k] → matchesLabel (some labels) lbl = false)) ∧
    (∀ lbl : String, matchesLabel none lbl = false) := by
  refine ⟨fun labels lbl k v => ⟨fun hsplit => ?_, fun hsplit => ?_⟩, fun lbl => rfl⟩
  · rw [matchesLabel, hsplit]
    exact matchesLabelLoop_pair k v labels
  · rw [matchesLabel, hsplit]
    exact matchesLabelLoop_bare k labels

/-- Witness for `matchesLabel_correct` at the concrete predicate `"a=b"`
over the label map `[("a", "b")]`. -/
theorem matchesLabel_correct_witness :
    (goSplitN2 "a=b" '=' = ["a", "b"] →
      (matchesLabel (some [("a", "b")]) "a=b" = true ↔ ("a", "b") ∈ [("a", "b")])) ∧
    (goSplitN2 "a=b" '=' = ["a"] → matchesLabel (some [("a", "b")]) "a=b" = false) :=
  matchesLabel_correct.1 [("a", "b")] "a=b" "a" "b"

/-- C4: evaluation at the failing input. With no stored images, the clause
`before=nosuchimage` fails, and the error message produced by `parseFilter`
is `"no such id: before"` — it names the filter key `before` (`pair[0]`),
not the supplied argument `nosuchimage`, which does not occur in the
message (the not-found message of `setFilterDate` naming the argument is
discarded). -/
theorem parseFilter_before_notFound_names_key :
    parseFilter (fun _ => .error "") [] "before=nosuchimage" = .err "no such id: before" ∧
    ¬ List.IsInfix "nosuchimage".data "no such id: before".data := by
  decide

/-- C5: evaluation at the failing input. The bare clause `dangling` (no
`=` separator) makes `parseFilter` read the nonexistent `pair[1]`: a Go
runtime panic (index out of range), not an error return — so `parseFilter`
does not terminate normally with a filter set or an error there. -/
theorem parseFilter_bare_dangling_crashes :
    parseFilter (fun _ => .error "") [] "dangling"
      = .crash "runtime error: index out of range" := by
  decide

/-- C8 (confirmed): on a row collection whose raw creation timestamps are
pairwise distinct, `sortImagesOutput` returns a permutation of the rows
that is strictly descending by raw creation timestamp (most recent
first). -/
theorem sortImagesOutput_sorted (l : List ImageOutputParams)
    (h : (l.map ImageOutputParams.createdAtRaw).Nodup) :
    List.Pairwise (fun a b => b.createdAtRaw < a.createdAtRaw) (sortImagesOutput l) ∧
    List.Perm (sortImagesOutput l) l := by
  have hperm : List.Perm (sortImagesOutput l) l :=
    List.perm_insertionSort (fun a b : ImageOutputParams => b.createdAtRaw ≤ a.createdAtRaw) l
  refine ⟨?_, hperm⟩
  have hsorted : List.Pairwise
      (fun a b : ImageOutputParams => b.createdAtRaw ≤ a.createdAtRaw) (sortImagesOutput l) :=
    List.sorted_insertionSort (fun a b : ImageOutputParams => b.createdAtRaw ≤ a.createdAtRaw) l
  have hnd : ((sortImagesOutput l).map ImageOutputParams.createdAtRaw).Nodup :=
    ((hperm.map ImageOutputParams.createdAtRaw).nodup_iff).mpr h
  have hne : List.Pairwise
      (fun a b : ImageOutputParams => a.createdAtRaw ≠ b.createdAtRaw) (sortImagesOutput l) :=
    List.pairwise_map.mp hnd
  exact (hsorted.and hne).imp (fun hab => lt_of_le_of_ne hab.1 (fun e => hab.2 e.symm))

/-- Witness for `sortImagesOutput_sorted` on three concrete rows with
distinct timestamps 5, 9, 1. -/
theorem sortImagesOutput_sorted_witness :
    (([⟨"a", "", "", "", [], "", "", 5, false⟩, ⟨"b", "", "", "", [], "", "", 9, false⟩,
        ⟨"c", "", "", "", [], "", "", 1, false⟩] : List ImageOutputParams).map
      ImageOutputParams.createdAtRaw).Nodup ∧
    List.Pairwise (fun a b => b.createdAtRaw < a.createdAtRaw)
      (sortImagesOutput [⟨"a", "", "", "", [], "", "", 5, false⟩,
        ⟨"b", "", "", "", [], "", "", 9, false⟩, ⟨"c", "", "", "", [], "", "", 1, false⟩]) ∧
    List.Perm
      (sortImagesOutput [⟨"a", "", "", "", [], "", "", 5, false⟩,
        ⟨"b", "", "", "", [], "", "", 9, false⟩, ⟨"c", "", "", "", [], "", "", 1, false⟩])
      [⟨"a", "", "", "", [], "", "", 5, false⟩, ⟨"b", "", "", "", [], "", "", 9, false⟩,
        ⟨"c", "", "", "", [], "", "", 1, false⟩] := by
  refine ⟨by decide, ?_, ?_⟩
  · exact (sortImagesOutput_sorted _ (by decide)).1
  · exact (sortImagesOutput_sorted _ (by decide)).2

/-- C9 counterexample: a record with zero names and a nil (absent) filter
set yields zero display rows — not exactly one — when the record is the
parent of another stored image and `--all` is unset: the intermediate-image
suppression skips it before any row is produced. -/
theorem outputImages_nameless_zero_rows :
    outputImages
      ⟨fun _ => (0, 0), fun _ => true, fun _ => none, fun _ => ""⟩
      [⟨"abc", [], 5, "", [], false⟩] none "" {}
      = .ok (.inr []) := by
  decide

/-- C9 (amended): for every image record with zero names, when the filter
set is nil (absent) or accepts the empty display name, and the record is
not suppressed as an intermediate image (`--all` set, or the record not a
parent of another stored image), `outputImages` in table mode produces
exactly one display row for that record, with empty name and empty tag;
and a nil filter set matches every record unconditionally. -/
theorem outputImages_nameless_one_row (env : OutputEnv) (image : StorageImage)
    (filters : Option FilterParams) (opts : ImageOptions)
    (hnames : image.names = [])
    (hfilter : filters = none ∨ matchesFilter env image "" filters = true)
    (hparent : opts.all = true ∨ env.isParent image = false)
    (hjson : opts.json = false) :
    (∃ row : ImageOutputParams,
      outputImages env [image] filters "" opts = .ok (.inr [row]) ∧
      row.name = "" ∧ row.tag = "") ∧
    (∀ (img : StorageImage) (nm : String), matchesFilter env img nm none = true) := by
  refine ⟨?_, fun _ _ => rfl⟩
  have hmf : matchesFilter env image "" filters = true := by
    rcases hfilter with h | h
    · subst h
      rfl
    · exact h
  refine ⟨{ id := if opts.truncate then shortID image.id else "sha256:" ++ image.id,
            name := "", tag := "", digest := image.digest, digests := image.digests,
            createdAt := env.humanAgo (resolvedCreated env image) ++ " ago",
            size := formattedSize (env.getDateAndSize image).2,
            createdAtRaw := resolvedCreated env image,
            readOnly := image.readOnly }, ?_, rfl, rfl⟩
  have hcrt : collectReposAndTags env filters "" image = [] := by
    simp [collectReposAndTags, hnames]
  have hrows : rowsForImage env filters "" opts image
      = [{ id := if opts.truncate then shortID image.id else "sha256:" ++ image.id,
           name := "", tag := "", digest := image.digest, digests := image.digests,
           createdAt := env.humanAgo (resolvedCreated env image) ++ " ago",
           size := formattedSize (env.getDateAndSize image).2,
           createdAtRaw := resolvedCreated env image,
           readOnly := image.readOnly }] := by
    rw [rowsForImage, if_neg (by rcases hparent with h | h <;> simp [h])]
    simp only [hcrt, hnames, List.isEmpty_nil, Bool.not_true, Bool.false_or, Bool.true_and, hmf]
    cases hq : opts.quiet <;> simp [List.take]
  have hfound : ([image].any (foundInImage "")) = false := by
    simp [foundInImage, hnames]
  rw [outputImages]
  simp only [hfound, hjson, ne_eq, Bool.false_eq_true, if_false]
  rw [if_neg (by simp)]
  simp only [List.map_cons, List.map_nil, List.flatten, List.append_nil, hrows]
  simp [sortImagesOutput, List.insertionSort, List.orderedInsert]

/-- Witness for `outputImages_nameless_one_row` at a concrete nameless
record, a trivial oracle environment and default options. -/
theorem outputImages_nameless_one_row_witness :
    (∃ row : ImageOutputParams,
      outputImages ⟨fun _ => (3, 42), fun _ => false, fun _ => none, fun _ => "recently"⟩
        [⟨"abc", [], 5, "d", [], false⟩] none "" {} = .ok (.inr [row]) ∧
      row.name = "" ∧ row.tag = "") ∧
    (∀ (img : StorageImage) (nm : String),
      matchesFilter ⟨fun _ => (3, 42), fun _ => false, fun _ => none, fun _ => "recently"⟩
        img nm none = true) :=
  outputImages_nameless_one_row _ _ _ _ rfl (Or.inl rfl) (Or.inr rfl) rfl

/-- C2 counterexample: with `--quiet` and `--format` both set, `imagesCmd`
does return the mutual-exclusion error, but only after the store handle
was obtained and the images were enumerated: the trace of the run contains
the store access and the image enumeration, contradicting the claim that
the command fails before any access to the store. -/
theorem imagesCmd_quiet_format_counterexample :
    (imagesCmd
        ⟨.ok (), .ok (), .ok [], .ok (), fun _ => .error "",
          ⟨fun _ => (0, 0), fun _ => false, fun _ => none, fun _ => ""⟩⟩
        [] { quiet := true, format := "table" }).1
      = .err "quiet and format are mutually exclusive" ∧
    CmdEvent.getStore ∈ (imagesCmd
        ⟨.ok (), .ok (), .ok [], .ok (), fun _ => .error "",
          ⟨fun _ => (0, 0), fun _ => false, fun _ => none, fun _ => ""⟩⟩
        [] { quiet := true, format := "table" }).2 ∧
    CmdEvent.listImages ∈ (imagesCmd
        ⟨.ok (), .ok (), .ok [], .ok (), fun _ => .error "",
          ⟨fun _ => (0, 0), fun _ => false, fun _ => none, fun _ => ""⟩⟩
        [] { quiet := true, format := "table" }).2 := by
  decide

/-- C2 (amended): if both `--quiet` and `--format` are set and the
preceding external calls succeed, the images command fails with the
mutual-exclusion error — but only after the store handle is obtained and
the images are enumerated (the trace ends with the store access, context
construction and image enumeration), before filter parsing and before any
output. -/
theorem imagesCmd_quiet_format_correct (env : CmdEnv) (iopts : ImageResults)
    (images : List StorageImage)
    (h1 : env.getStoreResult = .ok ()) (h2 : env.sysCtxResult = .ok ())
    (h3 : env.imagesResult = .ok images)
    (hq : iopts.quiet = true) (hf : iopts.format ≠ "") :
    imagesCmd env [] iopts
      = (.err "quiet and format are mutually exclusive",
         [.getStore, .sysContext, .listImages]) := by
  rw [imagesCmd]
  simp only [List.isEmpty_nil, if_true, h1, h2, h3]
  rw [if_pos ⟨hq, hf⟩]

/-- Witness for `imagesCmd_quiet_format_correct` at a concrete
environment with an empty store and concrete flags. -/
theorem imagesCmd_quiet_format_correct_witness :
    imagesCmd
        ⟨.ok (), .ok (), .ok [], .ok (), fun _ => .error "",
          ⟨fun _ => (0, 0), fun _ => false, fun _ => none, fun _ => ""⟩⟩
        [] { quiet := true, format := "table" }
      = (.err "quiet and format are mutually exclusive",
         [.getStore, .sysContext, .listImages]) :=
  imagesCmd_quiet_format_correct _ _ [] rfl rfl rfl rfl (by decide)
